import Mathlib

/-!
Verification of the update-resolution core of `react-native-code-push`
(creatrip fork): the semantic release resolver (`src/manual/SemverVersioning.js`),
the rollback-retry policy, the update-check suppression logic, the status-report
delivery path, and the single-flight `sync` guard (`src/CodePush.js`).

The JavaScript code is shallowly embedded: JS numbers are modelled as rationals
(`ℚ`), JS strings as Lean `String`s (with semver pre-release identifiers carried
as their character-code sequences), optional / possibly-`undefined` values as
`Option`, thrown errors as `Option`/explicit error fields, and the module-scoped
mutable singletons (the memoized configuration cache and the single-flight sync
flag) as explicit state threaded through the operations.
-/

namespace Semver

/-- A pre-release identifier in a semantic version: either a numeric identifier
or an alphanumeric one, the latter carried as its sequence of character codes
(node-semver compares alphanumeric identifiers by plain string comparison,
i.e. lexicographically on code units). -/
inductive PreId where
  | num (n : Nat)
  | str (s : List Nat)
deriving DecidableEq, Repr

/-- A parsed semantic version: the three-part core plus the (possibly empty)
dot-separated pre-release identifier list. Build metadata is ignored by
semver precedence and is not modelled. -/
structure SemVer where
  major : Nat
  minor : Nat
  patch : Nat
  prerelease : List PreId
deriving DecidableEq, Repr

/-- Three-way comparison of natural numbers (the numeric-identifier comparison
used by node-semver). -/
def cmpNat (a b : Nat) : Ordering :=
  if a < b then .lt else if b < a then .gt else .eq

/-- Lexicographic three-way comparison of code sequences; a strict prefix
compares less (JS string comparison). -/
def cmpCodes : List Nat → List Nat → Ordering
  | [], [] => .eq
  | [], _ :: _ => .lt
  | _ :: _, [] => .gt
  | a :: as, b :: bs => (cmpNat a b).then (cmpCodes as bs)

/-- node-semver `compareIdentifiers`: numeric identifiers compare numerically,
a numeric identifier is always lower than an alphanumeric one, and
alphanumeric identifiers compare as strings. -/
def compareIds : PreId → PreId → Ordering
  | .num a, .num b => cmpNat a b
  | .num _, .str _ => .lt
  | .str _, .num _ => .gt
  | .str a, .str b => cmpCodes a b

/-- Pairwise comparison of two non-empty pre-release identifier lists: compare
identifier by identifier; when one list is exhausted first it compares lower. -/
def cmpIdList : List PreId → List PreId → Ordering
  | [], [] => .eq
  | [], _ :: _ => .lt
  | _ :: _, [] => .gt
  | a :: as, b :: bs => (compareIds a b).then (cmpIdList as bs)

/-- node-semver `comparePre`: a version with a pre-release list is lower than
the same core version without one; two pre-release lists compare pairwise. -/
def comparePre : List PreId → List PreId → Ordering
  | [], [] => .eq
  | [], _ :: _ => .gt
  | _ :: _, [] => .lt
  | a :: as, b :: bs => cmpIdList (a :: as) (b :: bs)

/-- node-semver `compare`: major, then minor, then patch, then pre-release. -/
def compareSemver (a b : SemVer) : Ordering :=
  (cmpNat a.major b.major).then
    ((cmpNat a.minor b.minor).then
      ((cmpNat a.patch b.patch).then (comparePre a.prerelease b.prerelease)))

/-- `Semver.gt` of the `semver` npm package, on parsed versions. -/
def gt (a b : SemVer) : Bool := decide (compareSemver a b = .gt)

/-- `Semver.lt` of the `semver` npm package, on parsed versions. -/
def lt (a b : SemVer) : Bool := decide (compareSemver a b = .lt)

/-- `Semver.eq` of the `semver` npm package, on parsed versions. -/
def eqv (a b : SemVer) : Bool := decide (compareSemver a b = .eq)

theorem cmpNat_refl (a : Nat) : cmpNat a a = .eq := by
  simp [cmpNat]

theorem cmpNat_eq_iff {a b : Nat} : cmpNat a b = .eq ↔ a = b := by
  unfold cmpNat
  split
  · simp only [reduceCtorEq, false_iff]; omega
  · split
    · simp only [reduceCtorEq, false_iff]; omega
    · simp only [true_iff]; omega

theorem cmpNat_gt_iff {a b : Nat} : cmpNat a b = .gt ↔ b < a := by
  unfold cmpNat
  split
  · simp only [reduceCtorEq, false_iff]; omega
  · split
    · simp only [true_iff]; omega
    · simp only [reduceCtorEq, false_iff]; omega

theorem cmpNat_lt_iff {a b : Nat} : cmpNat a b = .lt ↔ a < b := by
  unfold cmpNat
  split
  · simp only [true_iff]; omega
  · split
    · simp only [reduceCtorEq, false_iff]; omega
    · simp only [reduceCtorEq, false_iff]; omega

theorem cmpNat_swap (a b : Nat) : cmpNat a b = (cmpNat b a).swap := by
  unfold cmpNat
  rcases Nat.lt_trichotomy a b with h | h | h
  · simp [h, Nat.lt_asymm h, Ordering.swap]
  · subst h; simp [Nat.lt_irrefl, Ordering.swap]
  · simp [h, Nat.lt_asymm h, Ordering.swap]

theorem cmpNat_trans_gt {a b c : Nat} (h₁ : cmpNat a b = .gt) (h₂ : cmpNat b c = .gt) :
    cmpNat a c = .gt := by
  rw [cmpNat_gt_iff] at h₁ h₂ ⊢
  omega

theorem cmpCodes_refl (l : List Nat) : cmpCodes l l = .eq := by
  induction l with
  | nil => rfl
  | cons a as ih => simp [cmpCodes, cmpNat_refl, ih, Ordering.then]

theorem cmpCodes_eq_iff {l₁ l₂ : List Nat} : cmpCodes l₁ l₂ = .eq ↔ l₁ = l₂ := by
  induction l₁ generalizing l₂ with
  | nil => cases l₂ <;> simp [cmpCodes]
  | cons a as ih =>
    cases l₂ with
    | nil => simp [cmpCodes]
    | cons b bs =>
      simp [cmpCodes, Ordering.then_eq_eq, cmpNat_eq_iff, ih]

theorem cmpCodes_swap (l₁ l₂ : List Nat) : cmpCodes l₁ l₂ = (cmpCodes l₂ l₁).swap := by
  induction l₁ generalizing l₂ with
  | nil => cases l₂ <;> rfl
  | cons a as ih =>
    cases l₂ with
    | nil => rfl
    | cons b bs =>
      simp only [cmpCodes, Ordering.swap_then, ← cmpNat_swap, ← ih]

theorem cmpCodes_trans_gt {l₁ l₂ l₃ : List Nat}
    (h₁ : cmpCodes l₁ l₂ = .gt) (h₂ : cmpCodes l₂ l₃ = .gt) :
    cmpCodes l₁ l₃ = .gt := by
  induction l₁ generalizing l₂ l₃ with
  | nil => cases l₂ <;> simp_all [cmpCodes]
  | cons a as ih =>
    cases l₂ with
    | nil => cases l₃ <;> simp_all [cmpCodes]
    | cons b bs =>
      cases l₃ with
      | nil => simp_all [cmpCodes]
      | cons c cs =>
        simp only [cmpCodes, Ordering.then_eq_gt] at h₁ h₂ ⊢
        rcases h₁ with h₁ | ⟨h₁e, h₁r⟩ <;> rcases h₂ with h₂ | ⟨h₂e, h₂r⟩
        · exact Or.inl (cmpNat_trans_gt h₁ h₂)
        · rw [cmpNat_eq_iff] at h₂e; subst h₂e; exact Or.inl h₁
        · rw [cmpNat_eq_iff] at h₁e; subst h₁e; exact Or.inl h₂
        · rw [cmpNat_eq_iff] at h₁e; subst h₁e
          exact Or.inr ⟨h₂e, ih h₁r h₂r⟩

theorem compareIds_refl (x : PreId) : compareIds x x = .eq := by
  cases x with
  | num n => simp [compareIds, cmpNat_refl]
  | str s => simp [compareIds, cmpCodes_refl]

theorem compareIds_eq_iff {x y : PreId} : compareIds x y = .eq ↔ x = y := by
  cases x <;> cases y <;>
    simp [compareIds, cmpNat_eq_iff, cmpCodes_eq_iff]

theorem compareIds_swap (x y : PreId) : compareIds x y = (compareIds y x).swap := by
  cases x <;> cases y <;> simp only [compareIds]
  · exact cmpNat_swap _ _
  · rfl
  · rfl
  · exact cmpCodes_swap _ _

theorem compareIds_trans_gt {x y z : PreId}
    (h₁ : compareIds x y = .gt) (h₂ : compareIds y z = .gt) :
    compareIds x z = .gt := by
  cases x <;> cases y <;> cases z <;> simp_all [compareIds]
  · exact cmpNat_trans_gt h₁ h₂
  · exact cmpCodes_trans_gt h₁ h₂

theorem cmpIdList_refl (l : List PreId) : cmpIdList l l = .eq := by
  induction l with
  | nil => rfl
  | cons a as ih => simp [cmpIdList, compareIds_refl, ih, Ordering.then]

theorem cmpIdList_swap (l₁ l₂ : List PreId) : cmpIdList l₁ l₂ = (cmpIdList l₂ l₁).swap := by
  induction l₁ generalizing l₂ with
  | nil => cases l₂ <;> rfl
  | cons a as ih =>
    cases l₂ with
    | nil => rfl
    | cons b bs =>
      simp only [cmpIdList, Ordering.swap_then, ← compareIds_swap, ← ih]

theorem cmpIdList_trans_gt {l₁ l₂ l₃ : List PreId}
    (h₁ : cmpIdList l₁ l₂ = .gt) (h₂ : cmpIdList l₂ l₃ = .gt) :
    cmpIdList l₁ l₃ = .gt := by
  induction l₁ generalizing l₂ l₃ with
  | nil => cases l₂ <;> simp_all [cmpIdList]
  | cons a as ih =>
    cases l₂ with
    | nil => cases l₃ <;> simp_all [cmpIdList]
    | cons b bs =>
      cases l₃ with
      | nil => simp_all [cmpIdList]
      | cons c cs =>
        simp only [cmpIdList, Ordering.then_eq_gt] at h₁ h₂ ⊢
        rcases h₁ with h₁ | ⟨h₁e, h₁r⟩ <;> rcases h₂ with h₂ | ⟨h₂e, h₂r⟩
        · exact Or.inl (compareIds_trans_gt h₁ h₂)
        · rw [compareIds_eq_iff] at h₂e; subst h₂e; exact Or.inl h₁
        · rw [compareIds_eq_iff] at h₁e; subst h₁e; exact Or.inl h₂
        · rw [compareIds_eq_iff] at h₁e; subst h₁e
          exact Or.inr ⟨h₂e, ih h₁r h₂r⟩

theorem comparePre_refl (l : List PreId) : comparePre l l = .eq := by
  cases l with
  | nil => rfl
  | cons a as => simp [comparePre, cmpIdList_refl]

theorem comparePre_swap (l₁ l₂ : List PreId) : comparePre l₁ l₂ = (comparePre l₂ l₁).swap := by
  cases l₁ <;> cases l₂ <;> simp only [comparePre]
  · rfl
  · rfl
  · rfl
  · exact cmpIdList_swap _ _

theorem comparePre_trans_gt {l₁ l₂ l₃ : List PreId}
    (h₁ : comparePre l₁ l₂ = .gt) (h₂ : comparePre l₂ l₃ = .gt) :
    comparePre l₁ l₃ = .gt := by
  cases l₁ with
  | nil =>
    cases l₂ with
    | nil => exact absurd h₁ (by simp [comparePre])
    | cons b bs =>
      cases l₃ with
      | nil => exact absurd h₂ (by simp [comparePre])
      | cons c cs => simp [comparePre]
  | cons a as =>
    cases l₂ with
    | nil => exact absurd h₁ (by simp [comparePre])
    | cons b bs =>
      cases l₃ with
      | nil => exact absurd h₂ (by simp [comparePre])
      | cons c cs =>
        simp only [comparePre] at h₁ h₂ ⊢
        exact cmpIdList_trans_gt h₁ h₂

theorem compareSemver_refl (a : SemVer) : compareSemver a a = .eq := by
  simp [compareSemver, cmpNat_refl, comparePre_refl, Ordering.then]

theorem compareSemver_swap (a b : SemVer) :
    compareSemver a b = (compareSemver b a).swap := by
  simp only [compareSemver, Ordering.swap_then, ← cmpNat_swap, ← comparePre_swap]

/-- Transitivity step for one level of a lexicographic strictly-greater
disjunction. -/
theorem lex_gt_trans {x y z : Nat} {p q r : Prop}
    (hpq : p → q → r)
    (h₁ : y < x ∨ (x = y ∧ p)) (h₂ : z < y ∨ (y = z ∧ q)) :
    z < x ∨ (x = z ∧ r) := by
  rcases h₁ with h₁ | ⟨e₁, hp⟩ <;> rcases h₂ with h₂ | ⟨e₂, hq⟩
  · left; omega
  · left; omega
  · left; omega
  · right; exact ⟨e₁.trans e₂, hpq hp hq⟩

theorem compareSemver_trans_gt {a b c : SemVer}
    (h₁ : compareSemver a b = .gt) (h₂ : compareSemver b c = .gt) :
    compareSemver a c = .gt := by
  simp only [compareSemver, Ordering.then_eq_gt, cmpNat_gt_iff, cmpNat_eq_iff] at h₁ h₂ ⊢
  refine lex_gt_trans (fun hp hq => ?_) h₁ h₂
  refine lex_gt_trans (fun hp' hq' => ?_) hp hq
  exact lex_gt_trans (fun hp'' hq'' => comparePre_trans_gt hp'' hq'') hp' hq'

theorem compareSemver_lt_of_gt {a b : SemVer} (h : compareSemver a b = .gt) :
    compareSemver b a = .lt := by
  rw [compareSemver_swap] at h
  rcases hba : compareSemver b a with _ | _ | _ <;> rw [hba] at h
  · exact absurd h (by decide)
  · exact absurd h (by decide)

theorem gt_iff {a b : SemVer} : gt a b = true ↔ compareSemver a b = .gt := by
  simp [gt]

theorem lt_iff {a b : SemVer} : lt a b = true ↔ compareSemver a b = .lt := by
  simp [lt]

theorem gt_trans_ver {a b c : SemVer} (h₁ : gt a b = true) (h₂ : gt b c = true) :
    gt a c = true := by
  rw [gt_iff] at h₁ h₂ ⊢
  exact compareSemver_trans_gt h₁ h₂

theorem gt_asymm {a b : SemVer} (h : gt a b = true) : gt b a = false := by
  rw [gt_iff] at h
  have hba := compareSemver_lt_of_gt h
  simp [gt, hba]

theorem gt_irrefl (a : SemVer) : gt a a = false := by
  simp [gt, compareSemver_refl]

theorem lt_eq_gt_swap (a b : SemVer) : lt a b = gt b a := by
  simp only [lt, gt]
  rw [compareSemver_swap a b]
  rcases compareSemver b a <;> rfl

end Semver

/-! ## A model of `Array.prototype.sort`

`SemverVersioning.js` sorts `Object.entries(releaseHistory)` with the
comparator `([v1], [v2]) => (Semver.gt(v1, v2) ? -1 : 1)`.  For a consistent
comparison function ECMAScript requires a stable sort, and every stable sort
computes the same list, so we model it by a stable insertion sort over the
boolean relation "keep `a` before `b`", which for this comparator is
`Semver.gt a b`. -/

/-- Stable insertion of `x` into `l`: `x` goes in front of the first element
`y` with `le x y`. -/
def insertSorted (le : α → α → Bool) (x : α) : List α → List α
  | [] => [x]
  | y :: ys => if le x y then x :: y :: ys else y :: insertSorted le x ys

/-- Stable insertion sort; models `Array.prototype.sort` run with a consistent
comparator, where `le a b = true` means the comparator orders `a` before `b`. -/
def jsSort (le : α → α → Bool) : List α → List α
  | [] => []
  | x :: xs => insertSorted le x (jsSort le xs)

theorem mem_insertSorted {le : α → α → Bool} {x a : α} {l : List α} :
    a ∈ insertSorted le x l ↔ a = x ∨ a ∈ l := by
  induction l with
  | nil => simp [insertSorted]
  | cons y ys ih =>
    simp only [insertSorted]
    split
    · simp
    · simp [ih]
      tauto

theorem mem_jsSort {le : α → α → Bool} {a : α} {l : List α} :
    a ∈ jsSort le l ↔ a ∈ l := by
  induction l with
  | nil => simp [jsSort]
  | cons x xs ih => simp [jsSort, mem_insertSorted, ih]

theorem jsSort_ne_nil {le : α → α → Bool} {x : α} {xs : List α} :
    jsSort le (x :: xs) ≠ [] := by
  simp only [jsSort]
  cases h : jsSort le xs with
  | nil => simp [insertSorted]
  | cons y ys =>
    simp only [insertSorted]
    split <;> simp

/-- The head of the stable sort is the strictly greatest element: if `m` is in
the list, is kept before every other element, and no other element is kept
before it, then the sort puts `m` first.  (Ties below `m` are irrelevant.) -/
theorem head_jsSort_of_greatest {le : α → α → Bool} {m : α} {l : List α}
    (hm : m ∈ l)
    (hgt : ∀ x ∈ l, x ≠ m → le m x = true)
    (hlt : ∀ x ∈ l, x ≠ m → le x m = false) :
    (jsSort le l).head? = some m := by
  induction l with
  | nil => cases hm
  | cons x xs ih =>
    simp only [jsSort]
    by_cases hx : x = m
    · subst hx
      by_cases hmem : x ∈ xs
      · have hhead : (jsSort le xs).head? = some x :=
          ih hmem (fun y hy hne => hgt y (List.mem_cons_of_mem _ hy) hne)
            (fun y hy hne => hlt y (List.mem_cons_of_mem _ hy) hne)
        cases hs : jsSort le xs with
        | nil => rw [hs] at hhead; cases hhead
        | cons z zs =>
          rw [hs] at hhead
          simp only [List.head?] at hhead
          have hz : z = x := by injection hhead
          subst hz
          simp only [insertSorted]
          split <;> rfl
      · cases hxs : xs with
        | nil => simp [hxs, jsSort, insertSorted]
        | cons y ys =>
          subst hxs
          cases hs : jsSort le (y :: ys) with
          | nil => exact absurd hs jsSort_ne_nil
          | cons z zs =>
            have hz : z ∈ y :: ys := by
              have : z ∈ jsSort le (y :: ys) := by rw [hs]; exact List.mem_cons_self _ _
              exact mem_jsSort.mp this
            have hzm : z ≠ x := fun h => hmem (h ▸ hz)
            have : le x z = true := hgt z (List.mem_cons_of_mem _ hz) hzm
            simp [insertSorted, this]
    · have hmxs : m ∈ xs := by
        rcases List.mem_cons.mp hm with h | h
        · exact absurd h.symm hx
        · exact h
      have hhead : (jsSort le xs).head? = some m :=
        ih hmxs (fun y hy hne => hgt y (List.mem_cons_of_mem _ hy) hne)
          (fun y hy hne => hlt y (List.mem_cons_of_mem _ hy) hne)
      cases hs : jsSort le xs with
      | nil => rw [hs] at hhead; cases hhead
      | cons z zs =>
        rw [hs] at hhead
        simp only [List.head?] at hhead
        have hz : z = m := by injection hhead
        subst hz
        have : le x z = false := hlt x (List.mem_cons_self _ _) hx
        simp [insertSorted, this]

/-! ## `src/manual/SemverVersioning.js` -/

namespace SemverVersioning

open Semver

/-- One value of the `ReleaseHistoryInterface` map: the per-release flags and
metadata consumed by the resolver. -/
structure ReleaseInfo where
  enabled : Bool
  mandatory : Bool
  downloadUrl : String
  packageHash : String
deriving DecidableEq, Repr

/-- `Object.entries(releaseHistory)`: the release-history map as its entry
list, in object insertion order, with the version-string keys parsed. -/
abbrev ReleaseHistory := List (SemVer × ReleaseInfo)

/-- The comparator `([v1], [v2]) => (Semver.gt(v1, v2) ? -1 : 1)` as the
"keep `a` before `b`" relation of the stable sort. -/
def releaseOrder (a b : SemVer × ReleaseInfo) : Bool := Semver.gt a.1 b.1

/-- `findLatestRelease(releaseHistory)`: filter to `enabled` entries, sort
newest-first, take the first entry.  `none` models the thrown
"no latest release" error. -/
def findLatestRelease (releaseHistory : ReleaseHistory) :
    Option (SemVer × ReleaseInfo) :=
  (jsSort releaseOrder (releaseHistory.filter (fun e => e.2.enabled))).head?

/-- `checkIsMandatory(runtimeVersion, releaseHistory)`: among enabled entries
sorted newest-first, keep the mandatory ones; `false` when there are none,
otherwise compare the first one's version against the runtime version. -/
def checkIsMandatory (runtimeVersion : SemVer) (releaseHistory : ReleaseHistory) :
    Bool :=
  let sortedMandatoryReleases :=
    (jsSort releaseOrder (releaseHistory.filter (fun e => e.2.enabled))).filter
      (fun e => e.2.mandatory)
  match sortedMandatoryReleases with
  | [] => false
  | (latestMandatoryVersion, _) :: _ => Semver.gt latestMandatoryVersion runtimeVersion

/-- `shouldRollback(runtimeVersion, latestReleaseVersion)`. -/
def shouldRollback (runtimeVersion latestReleaseVersion : SemVer) : Bool :=
  Semver.lt latestReleaseVersion runtimeVersion

end SemverVersioning

/-! ## Claims about the semantic release resolver -/

/-- C1: for every release history with at least one enabled entry whose version
is strictly greater (in semver precedence) than every other enabled entry's
version, `findLatestRelease` returns exactly that `(version, entry)` pair —
disabled entries are never selected even when their version is greater, since
they are filtered out before sorting; and for an empty history, or one in which
every entry is disabled, `findLatestRelease` throws (modelled as `none`). -/
theorem findLatestRelease_selects_greatest_enabled
    (history : SemverVersioning.ReleaseHistory)
    (m : Semver.SemVer × SemverVersioning.ReleaseInfo) :
    (m ∈ history.filter (fun e => e.2.enabled) →
      (∀ x ∈ history.filter (fun e => e.2.enabled), x ≠ m →
        Semver.gt m.1 x.1 = true) →
      SemverVersioning.findLatestRelease history = some m)
    ∧ (history.filter (fun e => e.2.enabled) = [] →
        SemverVersioning.findLatestRelease history = none) := by
  constructor
  · intro hm hgt
    unfold SemverVersioning.findLatestRelease
    exact head_jsSort_of_greatest hm hgt
      (fun x hx hne => by
        have := hgt x hx hne
        exact Semver.gt_asymm this)
  · intro hnil
    unfold SemverVersioning.findLatestRelease
    rw [hnil]
    rfl

/-- Concrete instance for the `findLatestRelease` claim: history
`{"1.0.0": enabled, "1.1.0": enabled+mandatory, "2.0.0": disabled}` resolves
to `1.1.0` — the disabled `2.0.0` never wins. -/
theorem findLatestRelease_selects_greatest_enabled_witness :
    SemverVersioning.findLatestRelease
      [(⟨1, 0, 0, []⟩, ⟨true, false, "u1", "h1"⟩),
       (⟨1, 1, 0, []⟩, ⟨true, true, "u2", "h2"⟩),
       (⟨2, 0, 0, []⟩, ⟨false, false, "u3", "h3"⟩)]
      = some (⟨1, 1, 0, []⟩, ⟨true, true, "u2", "h2"⟩) :=
  (findLatestRelease_selects_greatest_enabled
      [(⟨1, 0, 0, []⟩, ⟨true, false, "u1", "h1"⟩),
       (⟨1, 1, 0, []⟩, ⟨true, true, "u2", "h2"⟩),
       (⟨2, 0, 0, []⟩, ⟨false, false, "u3", "h3"⟩)]
      (⟨1, 1, 0, []⟩, ⟨true, true, "u2", "h2"⟩)).1
    (by decide) (by decide)

/-- C7: `shouldRollback(a, b)` returns true exactly when `b` is strictly below
`a` in semver precedence; it is false on equal versions (including pre-release
forms), and false whenever `b` is greater than or equal to `a`. -/
theorem shouldRollback_iff_strictly_less (a b : Semver.SemVer) :
    (SemverVersioning.shouldRollback a b = true ↔
      Semver.compareSemver b a = .lt)
    ∧ SemverVersioning.shouldRollback a a = false
    ∧ (Semver.gt b a = true ∨ Semver.eqv b a = true →
        SemverVersioning.shouldRollback a b = false) := by
  refine ⟨?_, ?_, ?_⟩
  · simp [SemverVersioning.shouldRollback, Semver.lt]
  · simp [SemverVersioning.shouldRollback, Semver.lt, Semver.compareSemver_refl]
  · intro h
    rcases h with h | h
    · rw [Semver.gt_iff] at h
      simp [SemverVersioning.shouldRollback, Semver.lt, h]
    · simp only [Semver.eqv, decide_eq_true_eq] at h
      simp [SemverVersioning.shouldRollback, Semver.lt, h]

/-- Concrete instance for the `shouldRollback` claim:
`shouldRollback("1.2.0", "1.1.0") = true`, `shouldRollback("1.0.0-alpha.1",
"1.0.0-alpha.1") = false`, and `shouldRollback("1.0.0", "1.1.0") = false`. -/
theorem shouldRollback_iff_strictly_less_witness :
    SemverVersioning.shouldRollback ⟨1, 2, 0, []⟩ ⟨1, 1, 0, []⟩ = true
    ∧ SemverVersioning.shouldRollback
        ⟨1, 0, 0, [.str [97], .num 1]⟩ ⟨1, 0, 0, [.str [97], .num 1]⟩ = false
    ∧ SemverVersioning.shouldRollback ⟨1, 0, 0, []⟩ ⟨1, 1, 0, []⟩ = false :=
  ⟨(shouldRollback_iff_strictly_less ⟨1, 2, 0, []⟩ ⟨1, 1, 0, []⟩).1.mpr (by decide),
   (shouldRollback_iff_strictly_less ⟨1, 0, 0, [.str [97], .num 1]⟩
      ⟨1, 0, 0, [.str [97], .num 1]⟩).2.1,
   (shouldRollback_iff_strictly_less ⟨1, 0, 0, []⟩ ⟨1, 1, 0, []⟩).2.2
     (.inl (by decide))⟩

/-- C8: for a fixed release history, `checkIsMandatory` is antitone in the
runtime version — if it is true at `v` it is true at every `v'` strictly below
`v` — and it is false whenever the history has no enabled mandatory entry. -/
theorem checkIsMandatory_antitone (history : SemverVersioning.ReleaseHistory)
    (v v' : Semver.SemVer) :
    (SemverVersioning.checkIsMandatory v history = true →
      Semver.lt v' v = true →
      SemverVersioning.checkIsMandatory v' history = true)
    ∧ ((∀ e ∈ history, e.2.enabled = true → e.2.mandatory = false) →
        SemverVersioning.checkIsMandatory v history = false) := by
  constructor
  · intro hv hlt
    unfold SemverVersioning.checkIsMandatory at hv ⊢
    rcases hL : (jsSort SemverVersioning.releaseOrder
        (history.filter (fun e => e.2.enabled))).filter (fun e => e.2.mandatory) with
      _ | ⟨⟨mv, i⟩, rest⟩
    · rw [hL] at hv
      simp at hv
    · rw [hL] at hv ⊢
      simp only at hv ⊢
      rw [Semver.lt_eq_gt_swap] at hlt
      exact Semver.gt_trans_ver hv hlt
  · intro hnone
    unfold SemverVersioning.checkIsMandatory
    have hL : (jsSort SemverVersioning.releaseOrder
        (history.filter (fun e => e.2.enabled))).filter (fun e => e.2.mandatory) = [] := by
      apply List.filter_eq_nil_iff.mpr
      intro e he
      have he' : e ∈ history.filter (fun x => x.2.enabled) := mem_jsSort.mp he
      have := List.mem_filter.mp he'
      have hm := hnone e this.1 this.2
      simp [hm]
    rw [hL]

/-- Concrete instance for the `checkIsMandatory` claim: with history
`{"1.0.0": enabled, "1.1.0": enabled+mandatory}`, `checkIsMandatory` is true at
runtime version `1.0.0`, hence also at the smaller `0.9.0`; and a history with
no enabled mandatory entry yields false. -/
theorem checkIsMandatory_antitone_witness :
    SemverVersioning.checkIsMandatory ⟨0, 9, 0, []⟩
      [(⟨1, 0, 0, []⟩, ⟨true, false, "u1", "h1"⟩),
       (⟨1, 1, 0, []⟩, ⟨true, true, "u2", "h2"⟩)] = true
    ∧ SemverVersioning.checkIsMandatory ⟨1, 0, 0, []⟩
        [(⟨1, 0, 0, []⟩, ⟨true, false, "u1", "h1"⟩)] = false :=
  ⟨(checkIsMandatory_antitone
      [(⟨1, 0, 0, []⟩, ⟨true, false, "u1", "h1"⟩),
       (⟨1, 1, 0, []⟩, ⟨true, true, "u2", "h2"⟩)]
      ⟨1, 0, 0, []⟩ ⟨0, 9, 0, []⟩).1 (by decide) (by decide),
   (checkIsMandatory_antitone
      [(⟨1, 0, 0, []⟩, ⟨true, false, "u1", "h1"⟩)]
      ⟨1, 0, 0, []⟩ ⟨1, 0, 0, []⟩).2 (by decide)⟩

/-! ## `src/CodePush.js`: configuration cache and update check -/

namespace CodePush

/-- The native configuration object returned by
`NativeCodePush.getConfiguration()`.  `deploymentKey` is a string whose empty
value models a falsy / missing key; `packageHash` is the binary's embedded
hash, absent (`none`) on platforms that do not track it. -/
structure Configuration where
  deploymentKey : String
  appVersion : String
  packageHash : Option String
  clientUniqueId : String
deriving DecidableEq, Repr

/-- The module-scoped mutable singletons of `CodePush.js` that the claims
touch: the closure variable `config` memoized by `getConfiguration`, the
test-only `testConfig`, and the native side's configuration (what
`NativeCodePush.getConfiguration()` would return). -/
structure ModuleState where
  cachedConfig : Option Configuration
  testConfig : Option Configuration
  nativeConfig : Configuration
deriving DecidableEq, Repr

/-- The memoized `getConfiguration`: return the cached object if present, else
the test configuration (not cached), else fetch from the native module and
cache it. -/
def getConfiguration (st : ModuleState) : Configuration × ModuleState :=
  match st.cachedConfig with
  | some c => (c, st)
  | none =>
    match st.testConfig with
    | some t => (t, st)
    | none => (st.nativeConfig, { st with cachedConfig := some st.nativeConfig })

/-- The JS assignment `config.deploymentKey = k` performed on the object that
`getConfiguration` returned: because that object is aliased by the memoization
cell (or by `testConfig`), the write lands in whichever cell the object came
from. -/
def setConfigDeploymentKey (st : ModuleState) (k : String) : ModuleState :=
  match st.cachedConfig with
  | some c => { st with cachedConfig := some { c with deploymentKey := k } }
  | none =>
    match st.testConfig with
    | some t => { st with testConfig := some { t with deploymentKey := k } }
    | none => { st with nativeConfig := { st.nativeConfig with deploymentKey := k } }

/-- The currently-installed package descriptor returned by
`getCurrentPackage()`, restricted to the fields `checkForUpdate` reads. -/
structure LocalPackage where
  appVersion : String
  packageHash : String
  label : Option String
  failedInstall : Bool
  isPending : Bool
  isDebugOnly : Bool
deriving DecidableEq, Repr

/-- A normal CodePush update as resolved by the update checker or the
acquisition SDK (case 4 of the resolution logic), field defaults already
applied. -/
structure UpdatePackageInfo where
  description : String
  label : String
  appVersion : String
  isMandatory : Bool
  packageHash : String
  packageSize : Nat
  downloadUrl : String
deriving DecidableEq, Repr

/-- The non-null resolution result `update`: either a binary-store update
notice (`update_app_version` set) or a full package descriptor. -/
inductive ResolvedUpdate where
  | updateAppVersion (appVersion : String)
  | pkg (info : UpdatePackageInfo)
deriving DecidableEq, Repr

/-- The remote package `checkForUpdate` hands back on success: the resolved
update with the `failedInstall` flag attached and the deployment key resolved
(explicit override wins over the native configuration's key). -/
structure RemotePackage where
  info : UpdatePackageInfo
  failedInstall : Bool
  deploymentKey : String
deriving DecidableEq, Repr

/-- `checkForUpdate(deploymentKey, handleBinaryVersionMismatchCallback)`, with
its I/O boundaries passed in explicitly: `localPackage` is what
`getCurrentPackage()` returned, `update` is the resolution result (custom
update checker or acquisition SDK), and `isFailedUpdateResult` is what
`NativeCodePush.isFailedUpdate(update.packageHash)` returns.  The result is
`(returned value, argument passed to the mismatch callback if it was invoked,
final module state)`. -/
def checkForUpdate (st : ModuleState) (deploymentKey : Option String)
    (hasBinaryVersionMismatchCallback : Bool)
    (localPackage : Option LocalPackage)
    (update : Option ResolvedUpdate)
    (isFailedUpdateResult : Bool) :
    Option RemotePackage × Option ResolvedUpdate × ModuleState :=
  let nativeConfig := (getConfiguration st).1
  let st1 := (getConfiguration st).2
  let config :=
    match deploymentKey with
    | some k => { nativeConfig with deploymentKey := k }
    | none => nativeConfig
  match update with
  | none => (none, none, st1)
  | some (.updateAppVersion av) =>
    (none,
     if hasBinaryVersionMismatchCallback then some (.updateAppVersion av) else none,
     st1)
  | some (.pkg info) =>
    let dupOfLocalPackage : Bool :=
      match localPackage with
      | some lp => info.packageHash == lp.packageHash
      | none => false
    let noLocalPackageOrDebugOnly : Bool :=
      match localPackage with
      | some lp => lp.isDebugOnly
      | none => true
    if dupOfLocalPackage
       || (noLocalPackageOrDebugOnly && config.packageHash == some info.packageHash) then
      (none, none, st1)
    else
      (some { info := info
              failedInstall := isFailedUpdateResult
              deploymentKey :=
                match deploymentKey with
                | some k => k
                | none => nativeConfig.deploymentKey },
       none, st1)

end CodePush

/-- C5: `checkForUpdate` returns null exactly when no update was resolved, or
the update carries the `updateAppVersion` flag (in which case the
binary-version-mismatch callback, when provided, is invoked with the update
before null is returned), or an installed local package has the same package
hash as the update, or there is no local package (or it is debug-only) and the
update's hash equals the binary's embedded hash from the configuration; in
every other case a non-null remote package is returned. -/
theorem checkForUpdate_returns_null_iff (st : CodePush.ModuleState)
    (deploymentKey : Option String) (hasCb : Bool)
    (localPackage : Option CodePush.LocalPackage)
    (update : Option CodePush.ResolvedUpdate)
    (isFailedUpdateResult : Bool) :
    ((CodePush.checkForUpdate st deploymentKey hasCb localPackage update
        isFailedUpdateResult).1 = none ↔
      (update = none
       ∨ (∃ av, update = some (.updateAppVersion av))
       ∨ (∃ info lp, update = some (.pkg info) ∧ localPackage = some lp ∧
            info.packageHash = lp.packageHash)
       ∨ (∃ info, update = some (.pkg info) ∧
            (localPackage = none ∨ ∃ lp, localPackage = some lp ∧ lp.isDebugOnly = true) ∧
            (CodePush.getConfiguration st).1.packageHash = some info.packageHash)))
    ∧ ((CodePush.checkForUpdate st deploymentKey hasCb localPackage update
        isFailedUpdateResult).2.1 =
      match update with
      | some (.updateAppVersion av) =>
        if hasCb then some (.updateAppVersion av) else none
      | _ => none) := by
  constructor
  · cases update with
    | none => simp [CodePush.checkForUpdate]
    | some u =>
      cases u with
      | updateAppVersion av => simp [CodePush.checkForUpdate]
      | pkg info =>
        cases deploymentKey
        all_goals
          cases localPackage with
          | none =>
            rcases hk : (CodePush.getConfiguration st).1.packageHash with _ | bh
            · simp [CodePush.checkForUpdate, hk]
            · by_cases hbh : bh = info.packageHash
              · subst hbh
                simp [CodePush.checkForUpdate, hk]
              · simp [CodePush.checkForUpdate, hk, hbh, Ne.symm hbh]
          | some lp =>
            by_cases hdup : info.packageHash = lp.packageHash
            · simp [CodePush.checkForUpdate, hdup]
            · cases hdbg : lp.isDebugOnly with
              | false => simp [CodePush.checkForUpdate, hdup, hdbg]
              | true =>
                rcases hk : (CodePush.getConfiguration st).1.packageHash with _ | bh
                · simp [CodePush.checkForUpdate, hdup, hdbg, hk]
                · by_cases hbh : bh = info.packageHash
                  · subst hbh
                    simp [CodePush.checkForUpdate, hdup, hdbg, hk]
                  · simp [CodePush.checkForUpdate, hdup, hdbg, hk, hbh, Ne.symm hbh]
  · cases update with
    | none => simp [CodePush.checkForUpdate]
    | some u =>
      cases u with
      | updateAppVersion av => simp [CodePush.checkForUpdate]
      | pkg info =>
        simp only [CodePush.checkForUpdate]
        split <;> rfl

/-! ## `src/CodePush.js`: status report delivery -/

namespace CodePush

/-- The `package` field of a CodePush-update status report. -/
structure StatusReportPackage where
  label : String
  packageHash : String
  deploymentKey : String
deriving DecidableEq, Repr

/-- A status report produced by `NativeCodePush.getNewStatusReport()`.  A
truthy `appVersion` makes it a binary-update report; otherwise it is a
CodePush-update report carrying `package` and `status`. -/
structure StatusReport where
  appVersion : Option String
  pkg : Option StatusReportPackage
  status : Option String
  previousLabelOrAppVersion : Option String
  previousDeploymentKey : Option String
deriving DecidableEq, Repr

/-- The observable effects of one `tryReportStatus` run. -/
structure ReportEffects where
  errorMessage : Option String
  deployReportSent : Bool
  rollbackInfoSavedFor : Option String
  recorded : Bool
  savedForRetry : Bool
  resumeListenerRegistered : Bool
  resumeListenerRemoved : Bool
deriving DecidableEq, Repr

/-- The shared catch block of `tryReportStatus`: log, persist the report for
retry, and register a resume listener unless one was already passed in. -/
def reportCatch (msg : String) (retryOnAppResume : Bool)
    (deployReportSent : Bool) (rollbackInfoSavedFor : Option String) : ReportEffects :=
  { errorMessage := some msg
    deployReportSent := deployReportSent
    rollbackInfoSavedFor := rollbackInfoSavedFor
    recorded := false
    savedForRetry := true
    resumeListenerRegistered := !retryOnAppResume
    resumeListenerRemoved := false }

/-- `tryReportStatus(statusReport, retryOnAppResume)`, with its I/O boundaries
passed in: `retryOnAppResume` is whether a resume-listener handle was passed
(the retry path), and `deployCallSucceeds` is the outcome of the
`sdk.reportStatusDeploy` network call.  Returns the run's observable effects
and the final module state; on the CodePush-update path the JS statement
`config.deploymentKey = statusReport.package.deploymentKey` writes through the
alias into the memoized configuration cell, which the returned state records. -/
def tryReportStatus (st : ModuleState) (statusReport : StatusReport)
    (retryOnAppResume : Bool) (deployCallSucceeds : Bool) :
    ReportEffects × ModuleState :=
  let config := (getConfiguration st).1
  let st1 := (getConfiguration st).2
  match statusReport.appVersion with
  | some _ =>
    if config.deploymentKey = "" then
      (reportCatch "Deployment key is missed" retryOnAppResume false none, st1)
    else if deployCallSucceeds then
      ({ errorMessage := none
         deployReportSent := true
         rollbackInfoSavedFor := none
         recorded := true
         savedForRetry := false
         resumeListenerRegistered := false
         resumeListenerRemoved := retryOnAppResume }, st1)
    else
      (reportCatch "Report status failed" retryOnAppResume false none, st1)
  | none =>
    match statusReport.pkg with
    | none =>
      -- `statusReport.package.label` on a missing package throws a TypeError,
      -- which the catch block treats like any other failure.
      (reportCatch "TypeError" retryOnAppResume false none, st1)
    | some p =>
      let rollbackInfoSavedFor : Option String :=
        if statusReport.status = some "DeploymentSucceeded" then none
        else some p.packageHash
      let st2 := setConfigDeploymentKey st1 p.deploymentKey
      if deployCallSucceeds then
        ({ errorMessage := none
           deployReportSent := true
           rollbackInfoSavedFor := rollbackInfoSavedFor
           recorded := true
           savedForRetry := false
           resumeListenerRegistered := false
           resumeListenerRemoved := retryOnAppResume }, st2)
      else
        (reportCatch "Report status failed" retryOnAppResume false rollbackInfoSavedFor, st2)

end CodePush

/-! ## Claims about status-report delivery and the configuration cache -/

/-- A module state whose memoized configuration has an empty (falsy)
deployment key; used to exercise the binary-update report path. -/
def CodePush.missingKeyState : CodePush.ModuleState :=
  { cachedConfig := some
      { deploymentKey := "", appVersion := "1.0.0", packageHash := none,
        clientUniqueId := "c1" }
    testConfig := none
    nativeConfig :=
      { deploymentKey := "", appVersion := "1.0.0", packageHash := none,
        clientUniqueId := "c1" } }

/-- A binary-update status report (truthy `appVersion`, no package). -/
def CodePush.binaryStatusReport : CodePush.StatusReport :=
  { appVersion := some "1.0.0"
    pkg := none
    status := none
    previousLabelOrAppVersion := none
    previousDeploymentKey := none }

/-- C6 counterexample: a binary-update report processed with no configured
deployment key IS persisted for retry, and a resume-triggered retry listener
IS registered — the thrown configuration error lands in the generic catch
block, which schedules the automatic retry the claim says never happens. -/
theorem missing_key_report_is_retried :
    (CodePush.tryReportStatus CodePush.missingKeyState CodePush.binaryStatusReport
        false true).1.savedForRetry = true
    ∧ (CodePush.tryReportStatus CodePush.missingKeyState CodePush.binaryStatusReport
        false true).1.resumeListenerRegistered = true := by
  constructor <;> rfl

/-- C6 (amended): when a binary-update status report is processed and no
deployment key is configured, the run aborts with the configuration error
"Deployment key is missed" before any deployment event is sent and nothing is
recorded as reported; but the failure is handled by the generic retry path:
the report is persisted for retry and, when no resume listener is already
active, a resume-triggered retry listener is registered. -/
theorem tryReportStatus_missing_key (st : CodePush.ModuleState)
    (report : CodePush.StatusReport) (retryOnAppResume deployCallSucceeds : Bool)
    (hav : ∃ v, report.appVersion = some v)
    (hkey : (CodePush.getConfiguration st).1.deploymentKey = "") :
    ((CodePush.tryReportStatus st report retryOnAppResume deployCallSucceeds).1.errorMessage
        = some "Deployment key is missed")
    ∧ ((CodePush.tryReportStatus st report retryOnAppResume
        deployCallSucceeds).1.deployReportSent = false)
    ∧ ((CodePush.tryReportStatus st report retryOnAppResume
        deployCallSucceeds).1.recorded = false)
    ∧ ((CodePush.tryReportStatus st report retryOnAppResume
        deployCallSucceeds).1.savedForRetry = true)
    ∧ ((CodePush.tryReportStatus st report retryOnAppResume
        deployCallSucceeds).1.resumeListenerRegistered = (!retryOnAppResume)) := by
  obtain ⟨v, hv⟩ := hav
  simp [CodePush.tryReportStatus, hv, hkey, CodePush.reportCatch]

/-- Concrete instance for the amended C6 claim, at the counterexample input. -/
theorem tryReportStatus_missing_key_witness :
    ((CodePush.tryReportStatus CodePush.missingKeyState CodePush.binaryStatusReport
        false true).1.errorMessage = some "Deployment key is missed")
    ∧ ((CodePush.tryReportStatus CodePush.missingKeyState CodePush.binaryStatusReport
        false true).1.deployReportSent = false)
    ∧ ((CodePush.tryReportStatus CodePush.missingKeyState CodePush.binaryStatusReport
        false true).1.recorded = false)
    ∧ ((CodePush.tryReportStatus CodePush.missingKeyState CodePush.binaryStatusReport
        false true).1.savedForRetry = true)
    ∧ ((CodePush.tryReportStatus CodePush.missingKeyState CodePush.binaryStatusReport
        false true).1.resumeListenerRegistered = (!false)) :=
  tryReportStatus_missing_key CodePush.missingKeyState CodePush.binaryStatusReport
    false true ⟨"1.0.0", rfl⟩ rfl

/-- The state component of `checkForUpdate` is whatever `getConfiguration`
left behind: the suppression logic never writes to the module state. -/
theorem CodePush.checkForUpdate_state (st : CodePush.ModuleState)
    (dk : Option String) (cb : Bool) (lp : Option CodePush.LocalPackage)
    (upd : Option CodePush.ResolvedUpdate) (f : Bool) :
    (CodePush.checkForUpdate st dk cb lp upd f).2.2 = (CodePush.getConfiguration st).2 := by
  rcases upd with _ | u
  · rfl
  · cases u with
    | updateAppVersion av => rfl
    | pkg info =>
      simp only [CodePush.checkForUpdate]
      split <;> rfl

/-- C10: a CodePush-update status report run assigns the reported package's
deployment key onto the very object cached by the memoized `getConfiguration`,
so every later `getConfiguration` caller observes the mutated key; whereas
`checkForUpdate` with an explicit deployment-key override spreads into a fresh
object and leaves the cached configuration untouched. -/
theorem tryReportStatus_mutates_cached_config (st : CodePush.ModuleState)
    (c : CodePush.Configuration) (p : CodePush.StatusReportPackage)
    (report : CodePush.StatusReport) (retryOnAppResume deployCallSucceeds : Bool)
    (k : String) (hasCb : Bool) (lp : Option CodePush.LocalPackage)
    (upd : Option CodePush.ResolvedUpdate) (f : Bool)
    (hc : st.cachedConfig = some c)
    (hav : report.appVersion = none)
    (hpkg : report.pkg = some p) :
    ((CodePush.getConfiguration
        (CodePush.tryReportStatus st report retryOnAppResume deployCallSucceeds).2).1.deploymentKey
      = p.deploymentKey)
    ∧ ((CodePush.tryReportStatus st report retryOnAppResume deployCallSucceeds).2.cachedConfig
      = some { c with deploymentKey := p.deploymentKey })
    ∧ ((CodePush.checkForUpdate st (some k) hasCb lp upd f).2.2 = st
        ∧ (CodePush.getConfiguration
            (CodePush.checkForUpdate st (some k) hasCb lp upd f).2.2).1 = c) := by
  have hget : CodePush.getConfiguration st = (c, st) := by
    simp [CodePush.getConfiguration, hc]
  have hstate :
      (CodePush.tryReportStatus st report retryOnAppResume deployCallSucceeds).2
        = { st with cachedConfig := some { c with deploymentKey := p.deploymentKey } } := by
    simp only [CodePush.tryReportStatus, hget, hav, hpkg]
    cases deployCallSucceeds <;>
      simp [CodePush.setConfigDeploymentKey, hc]
  refine ⟨?_, ?_, ?_⟩
  · rw [hstate]
    simp [CodePush.getConfiguration]
  · rw [hstate]
  · have hs : (CodePush.checkForUpdate st (some k) hasCb lp upd f).2.2 = st := by
      rw [CodePush.checkForUpdate_state, hget]
    exact ⟨hs, by rw [hs, hget]⟩

/-- Concrete instance for the configuration-mutation claim. -/
theorem tryReportStatus_mutates_cached_config_witness :
    ((CodePush.getConfiguration
        (CodePush.tryReportStatus CodePush.missingKeyState
          { appVersion := none
            pkg := some { label := "v2", packageHash := "h2", deploymentKey := "K2" }
            status := some "DeploymentSucceeded"
            previousLabelOrAppVersion := none
            previousDeploymentKey := none }
          false true).2).1.deploymentKey = "K2")
    ∧ ((CodePush.tryReportStatus CodePush.missingKeyState
          { appVersion := none
            pkg := some { label := "v2", packageHash := "h2", deploymentKey := "K2" }
            status := some "DeploymentSucceeded"
            previousLabelOrAppVersion := none
            previousDeploymentKey := none }
          false true).2.cachedConfig
      = some { deploymentKey := "K2", appVersion := "1.0.0", packageHash := none,
               clientUniqueId := "c1" })
    ∧ ((CodePush.checkForUpdate CodePush.missingKeyState (some "OVR") false none none
          false).2.2
          = CodePush.missingKeyState
        ∧ (CodePush.getConfiguration
            (CodePush.checkForUpdate CodePush.missingKeyState (some "OVR") false none none
              false).2.2).1
          = { deploymentKey := "", appVersion := "1.0.0", packageHash := none,
              clientUniqueId := "c1" }) :=
  tryReportStatus_mutates_cached_config CodePush.missingKeyState
    { deploymentKey := "", appVersion := "1.0.0", packageHash := none,
      clientUniqueId := "c1" }
    { label := "v2", packageHash := "h2", deploymentKey := "K2" }
    { appVersion := none
      pkg := some { label := "v2", packageHash := "h2", deploymentKey := "K2" }
      status := some "DeploymentSucceeded"
      previousLabelOrAppVersion := none
      previousDeploymentKey := none }
    false true "OVR" false none none false rfl rfl rfl

/-! ## `src/CodePush.js`: rollback retry policy -/

namespace CodePush

/-- A JS value that may or may not be a number; used for the fields of a
user-supplied `rollbackRetryOptions` object (JS numbers as rationals). -/
inductive JSValue where
  | num (q : ℚ)
  | nonNum
deriving DecidableEq, Repr

/-- A user-supplied `rollbackRetryOptions` object: each recognized key is
either absent (`none`) or present with some value (`some`), possibly a
non-number. -/
structure RollbackRetryOptionsObj where
  delayInHours : Option JSValue
  maxRetryAttempts : Option JSValue
deriving DecidableEq, Repr

/-- The `rollbackRetryOptions` entry of the sync options, as JS sees it:
falsy (`null`/`undefined`/other falsy values), a truthy non-object, or an
object. -/
inductive RollbackRetryOptionsValue where
  | falsy
  | truthyNonObject
  | obj (o : RollbackRetryOptionsObj)
deriving DecidableEq, Repr

/-- A rollback-retry options object known to carry both keys (after merging
with the defaults). -/
structure MergedRollbackRetryOptions where
  delayInHours : JSValue
  maxRetryAttempts : JSValue
deriving DecidableEq, Repr

/-- `CodePush.DEFAULT_ROLLBACK_RETRY_OPTIONS`. -/
def DEFAULT_ROLLBACK_RETRY_OPTIONS : MergedRollbackRetryOptions :=
  { delayInHours := .num 24, maxRetryAttempts := .num 1 }

/-- The spread `{...CodePush.DEFAULT_ROLLBACK_RETRY_OPTIONS, ...rollbackRetryOptions}`:
a key present on the user object (even with a non-numeric value) overrides the
default; an absent key keeps the default. -/
def mergeRollbackRetryOptions (o : RollbackRetryOptionsObj) : MergedRollbackRetryOptions :=
  { delayInHours := o.delayInHours.getD DEFAULT_ROLLBACK_RETRY_OPTIONS.delayInHours
    maxRetryAttempts := o.maxRetryAttempts.getD DEFAULT_ROLLBACK_RETRY_OPTIONS.maxRetryAttempts }

/-- `validateRollbackRetryOptions(rollbackRetryOptions)`: both parameters must
be numbers and `maxRetryAttempts` must be at least 1; each failing check logs
a configuration warning.  Returns the verdict together with the warnings
logged. -/
def validateRollbackRetryOptions (o : MergedRollbackRetryOptions) :
    Bool × List String :=
  match o.delayInHours with
  | .nonNum => (false, ["The 'delayInHours' rollback retry parameter must be a number."])
  | .num _ =>
    match o.maxRetryAttempts with
    | .nonNum => (false, ["The 'maxRetryAttempts' rollback retry parameter must be a number."])
    | .num m =>
      if m < 1 then
        (false, ["The 'maxRetryAttempts' rollback retry parameter cannot be less then 1."])
      else
        (true, [])

/-- The persisted rollback record returned by
`NativeCodePush.getLatestRollbackInfo()` (fields as JS numbers / string). -/
structure RollbackInfo where
  time : ℚ
  count : ℚ
  packageHash : String
deriving DecidableEq, Repr

/-- `validateLatestRollbackInfo(latestRollbackInfo, packageHash)`: the record
and each of its fields must be truthy and the hash must match the candidate's. -/
def validateLatestRollbackInfo (latestRollbackInfo : Option RollbackInfo)
    (packageHash : String) : Bool :=
  match latestRollbackInfo with
  | none => false
  | some i =>
    decide (i.time ≠ 0) && decide (i.count ≠ 0) && decide (i.packageHash ≠ "")
      && decide (i.packageHash = packageHash)

/-- The sync options consumed by `shouldUpdateBeIgnored` (defaults from
`syncInternal` already applied to `ignoreFailedUpdates`). -/
structure SyncOptionsModel where
  ignoreFailedUpdates : Bool
  rollbackRetryOptions : RollbackRetryOptionsValue
deriving DecidableEq, Repr

/-- The tail of `shouldUpdateBeIgnored` once the retry options have been
normalized into an object with both keys: validate the policy, validate the
persisted rollback info against the candidate's hash, then permit the retry
(return `false`) precisely when enough hours have elapsed and the rollback
count does not exceed the attempt budget. -/
def shouldUpdateBeIgnoredWithOptions (packageHash : String)
    (rollbackRetryOptions : MergedRollbackRetryOptions)
    (latestRollbackInfo : Option RollbackInfo) (now : ℚ) : Bool :=
  if !(validateRollbackRetryOptions rollbackRetryOptions).1 then
    true
  else if !(validateLatestRollbackInfo latestRollbackInfo packageHash) then
    true
  else
    match latestRollbackInfo, rollbackRetryOptions.delayInHours,
        rollbackRetryOptions.maxRetryAttempts with
    | some info, .num delayInHours, .num maxRetryAttempts =>
      let hoursSinceLatestRollback := (now - info.time) / (1000 * 60 * 60)
      if hoursSinceLatestRollback ≥ delayInHours ∧ maxRetryAttempts ≥ info.count then
        false
      else
        true
    | _, _, _ => true

/-- `shouldUpdateBeIgnored(remotePackage, syncOptions)`, with the I/O
boundaries passed in: `latestRollbackInfo` is what
`NativeCodePush.getLatestRollbackInfo()` returns and `now` is `Date.now()`
(milliseconds). -/
def shouldUpdateBeIgnored (remotePackage : Option RemotePackage)
    (syncOptions : SyncOptionsModel)
    (latestRollbackInfo : Option RollbackInfo) (now : ℚ) : Bool :=
  match remotePackage with
  | none => false
  | some p =>
    if !p.failedInstall || !syncOptions.ignoreFailedUpdates then
      false
    else
      match syncOptions.rollbackRetryOptions with
      | .falsy => true
      | .truthyNonObject =>
        shouldUpdateBeIgnoredWithOptions p.info.packageHash
          DEFAULT_ROLLBACK_RETRY_OPTIONS latestRollbackInfo now
      | .obj o =>
        shouldUpdateBeIgnoredWithOptions p.info.packageHash
          (mergeRollbackRetryOptions o) latestRollbackInfo now

end CodePush

/-! ## Claims about the rollback retry policy -/

/-- An invalid merged policy fails validation and logs at least one
configuration warning. -/
theorem CodePush.validateRollbackRetryOptions_invalid
    (o : CodePush.MergedRollbackRetryOptions)
    (hbad : o.delayInHours = .nonNum
      ∨ o.maxRetryAttempts = .nonNum
      ∨ ∃ m, o.maxRetryAttempts = .num m ∧ m < 1) :
    (CodePush.validateRollbackRetryOptions o).1 = false
    ∧ (CodePush.validateRollbackRetryOptions o).2 ≠ [] := by
  rcases hbad with hd | hm | ⟨m, hm, hm1⟩
  · simp [CodePush.validateRollbackRetryOptions, hd]
  · rcases hd : o.delayInHours with q | _
    · simp [CodePush.validateRollbackRetryOptions, hd, hm]
    · simp [CodePush.validateRollbackRetryOptions, hd]
  · rcases hd : o.delayInHours with q | _
    · simp [CodePush.validateRollbackRetryOptions, hd, hm, hm1]
    · simp [CodePush.validateRollbackRetryOptions, hd]

/-- C3: for a failed candidate update with `ignoreFailedUpdates`, a valid
configured retry policy (both fields numeric after merging with the defaults,
`maxRetryAttempts ≥ 1`), and persisted rollback info that is well-formed and
matches the candidate's package hash, the update is NOT ignored exactly when
the hours elapsed since the rollback are at least `delayInHours` and the
rollback count is at most `maxRetryAttempts`. -/
theorem shouldUpdateBeIgnored_retry_window (p : CodePush.RemotePackage)
    (syncOptions : CodePush.SyncOptionsModel) (o : CodePush.RollbackRetryOptionsObj)
    (i : CodePush.RollbackInfo) (now d m : ℚ)
    (hfail : p.failedInstall = true)
    (hign : syncOptions.ignoreFailedUpdates = true)
    (hobj : syncOptions.rollbackRetryOptions = .obj o)
    (hd : (CodePush.mergeRollbackRetryOptions o).delayInHours = .num d)
    (hm : (CodePush.mergeRollbackRetryOptions o).maxRetryAttempts = .num m)
    (hm1 : 1 ≤ m)
    (ht : i.time ≠ 0) (hcnt : i.count ≠ 0)
    (hne : i.packageHash ≠ "")
    (hhash : i.packageHash = p.info.packageHash) :
    (CodePush.shouldUpdateBeIgnored (some p) syncOptions (some i) now = false ↔
      ((now - i.time) / (1000 * 60 * 60) ≥ d ∧ i.count ≤ m)) := by
  have hmlt : ¬ m < (1 : ℚ) := not_lt.mpr hm1
  have hne' : p.info.packageHash ≠ "" := hhash ▸ hne
  by_cases hcond : (now - i.time) / (1000 * 60 * 60) ≥ d ∧ i.count ≤ m
  · simp [CodePush.shouldUpdateBeIgnored, hfail, hign, hobj,
      CodePush.shouldUpdateBeIgnoredWithOptions, CodePush.validateRollbackRetryOptions,
      hd, hm, hmlt, CodePush.validateLatestRollbackInfo, ht, hcnt, hne, hne', hhash,
      hcond.1, hcond.2]
  · rw [not_and_or] at hcond
    rcases hcond with hcond | hcond <;>
      simp [CodePush.shouldUpdateBeIgnored, hfail, hign, hobj,
        CodePush.shouldUpdateBeIgnoredWithOptions, CodePush.validateRollbackRetryOptions,
        hd, hm, hmlt, CodePush.validateLatestRollbackInfo, ht, hcnt, hne, hne', hhash,
        hcond]

/-- A failed update that has previously been rolled back: `packageHash` `"h"`,
used by the rollback-retry policy instances. -/
def CodePush.failedRemotePackage : CodePush.RemotePackage :=
  { info := { description := "", label := "v1", appVersion := "1.0.0",
              isMandatory := false, packageHash := "h", packageSize := 0,
              downloadUrl := "" }
    failedInstall := true
    deploymentKey := "k" }

/-- Concrete instance for the retry-window claim: policy
`{delayInHours: 24, maxRetryAttempts: 1}` and rollback info recorded 25 hours
ago (`now - time = 25h` in milliseconds) with `count = 1` and matching hash —
the update is not ignored. -/
theorem shouldUpdateBeIgnored_retry_window_witness :
    CodePush.shouldUpdateBeIgnored (some CodePush.failedRemotePackage)
      { ignoreFailedUpdates := true
        rollbackRetryOptions := .obj
          { delayInHours := some (.num 24), maxRetryAttempts := some (.num 1) } }
      (some { time := 1000, count := 1, packageHash := "h" })
      (1000 + 25 * 3600000) = false :=
  (shouldUpdateBeIgnored_retry_window CodePush.failedRemotePackage
      { ignoreFailedUpdates := true
        rollbackRetryOptions := .obj
          { delayInHours := some (.num 24), maxRetryAttempts := some (.num 1) } }
      { delayInHours := some (.num 24), maxRetryAttempts := some (.num 1) }
      { time := 1000, count := 1, packageHash := "h" }
      (1000 + 25 * 3600000) 24 1
      rfl rfl rfl rfl rfl (by norm_num) (by norm_num) (by norm_num) (by decide) rfl).mpr
    (by norm_num)

/-- C4: a configured `rollbackRetryOptions` object whose merged shape is
invalid — `delayInHours` not numeric, or `maxRetryAttempts` not numeric, or
`maxRetryAttempts < 1` — makes `shouldUpdateBeIgnored` ignore the failed
update (return true), and a configuration warning is logged by the
validation. -/
theorem shouldUpdateBeIgnored_invalid_policy (p : CodePush.RemotePackage)
    (syncOptions : CodePush.SyncOptionsModel) (o : CodePush.RollbackRetryOptionsObj)
    (latestRollbackInfo : Option CodePush.RollbackInfo) (now : ℚ)
    (hfail : p.failedInstall = true)
    (hign : syncOptions.ignoreFailedUpdates = true)
    (hobj : syncOptions.rollbackRetryOptions = .obj o)
    (hbad : (CodePush.mergeRollbackRetryOptions o).delayInHours = .nonNum
      ∨ (CodePush.mergeRollbackRetryOptions o).maxRetryAttempts = .nonNum
      ∨ ∃ m, (CodePush.mergeRollbackRetryOptions o).maxRetryAttempts = .num m ∧ m < 1) :
    CodePush.shouldUpdateBeIgnored (some p) syncOptions latestRollbackInfo now = true
    ∧ (CodePush.validateRollbackRetryOptions
        (CodePush.mergeRollbackRetryOptions o)).2 ≠ [] := by
  obtain ⟨hv, hw⟩ := CodePush.validateRollbackRetryOptions_invalid _ hbad
  refine ⟨?_, hw⟩
  simp [CodePush.shouldUpdateBeIgnored, hfail, hign, hobj,
    CodePush.shouldUpdateBeIgnoredWithOptions, hv]

/-- Concrete instance for the invalid-policy claim: `{delayInHours: "soon"}`
(a non-numeric delay; `maxRetryAttempts` defaulted) is ignored and warned
about. -/
theorem shouldUpdateBeIgnored_invalid_policy_witness :
    CodePush.shouldUpdateBeIgnored (some CodePush.failedRemotePackage)
      { ignoreFailedUpdates := true
        rollbackRetryOptions := .obj
          { delayInHours := some .nonNum, maxRetryAttempts := none } }
      (some { time := 1000, count := 1, packageHash := "h" }) 99999999 = true
    ∧ (CodePush.validateRollbackRetryOptions
        (CodePush.mergeRollbackRetryOptions
          { delayInHours := some .nonNum, maxRetryAttempts := none })).2 ≠ [] :=
  shouldUpdateBeIgnored_invalid_policy CodePush.failedRemotePackage
    { ignoreFailedUpdates := true
      rollbackRetryOptions := .obj
        { delayInHours := some .nonNum, maxRetryAttempts := none } }
    { delayInHours := some .nonNum, maxRetryAttempts := none }
    (some { time := 1000, count := 1, packageHash := "h" }) 99999999
    rfl rfl rfl (Or.inl rfl)

/-- C9: `shouldUpdateBeIgnored` returns false when there is no candidate, when
the candidate is not a previously-failed install, or when
`ignoreFailedUpdates` is off; and it returns true for a previously-failed
candidate with `ignoreFailedUpdates` on and no configured retry policy,
regardless of the persisted rollback state or the current time. -/
theorem shouldUpdateBeIgnored_gate (p : CodePush.RemotePackage)
    (syncOptions : CodePush.SyncOptionsModel)
    (latestRollbackInfo : Option CodePush.RollbackInfo) (now : ℚ) :
    (CodePush.shouldUpdateBeIgnored none syncOptions latestRollbackInfo now = false)
    ∧ (p.failedInstall = false →
        CodePush.shouldUpdateBeIgnored (some p) syncOptions latestRollbackInfo now = false)
    ∧ (syncOptions.ignoreFailedUpdates = false →
        CodePush.shouldUpdateBeIgnored (some p) syncOptions latestRollbackInfo now = false)
    ∧ (p.failedInstall = true → syncOptions.ignoreFailedUpdates = true →
        syncOptions.rollbackRetryOptions = .falsy →
        CodePush.shouldUpdateBeIgnored (some p) syncOptions latestRollbackInfo now
          = true) := by
  refine ⟨?_, ?_, ?_, ?_⟩
  · rfl
  · intro h
    simp [CodePush.shouldUpdateBeIgnored, h]
  · intro h
    simp [CodePush.shouldUpdateBeIgnored, h]
  · intro h1 h2 h3
    simp [CodePush.shouldUpdateBeIgnored, h1, h2, h3]

/-- Concrete instance for the gate claim: a failed update with no configured
retry policy is ignored even long after the rollback. -/
theorem shouldUpdateBeIgnored_gate_witness :
    CodePush.shouldUpdateBeIgnored (some CodePush.failedRemotePackage)
      { ignoreFailedUpdates := true, rollbackRetryOptions := .falsy }
      (some { time := 1, count := 1, packageHash := "h" })
      99999999999 = true :=
  (shouldUpdateBeIgnored_gate CodePush.failedRemotePackage
      { ignoreFailedUpdates := true, rollbackRetryOptions := .falsy }
      (some { time := 1, count := 1, packageHash := "h" })
      99999999999).2.2.2 rfl rfl rfl

/-! ## `src/CodePush.js`: the single-flight `sync` guard -/

namespace CodePush

/-! The numeric `CodePush.SyncStatus` enumeration. -/

namespace SyncStatus

def UP_TO_DATE : Nat := 0
def UPDATE_INSTALLED : Nat := 1
def UPDATE_IGNORED : Nat := 2
def UNKNOWN_ERROR : Nat := 3
def SYNC_IN_PROGRESS : Nat := 4
def CHECKING_FOR_UPDATE : Nat := 5
def AWAITING_USER_ACTION : Nat := 6
def DOWNLOADING_PACKAGE : Nat := 7
def INSTALLING_UPDATE : Nat := 8

end SyncStatus

/-- The eventual settlement of one `syncInternal` run's promise. -/
inductive RunResult where
  | resolved (status : Nat)
  | rejected (message : String)
deriving DecidableEq, Repr

/-- The closure state of the `sync` IIFE: the module-scoped `syncInProgress`
flag, plus the eventual result of the in-flight run (if any) so that claims
can observe that a rejected duplicate call leaves it untouched. -/
structure SyncGuard where
  syncInProgress : Bool
  inFlight : Option RunResult
deriving DecidableEq, Repr

/-- What one `sync()` call hands back to its caller: either the immediately
resolved `Promise.resolve(SYNC_IN_PROGRESS)` or the freshly started
`syncInternal` promise with its eventual result. -/
inductive SyncReturn where
  | immediate (status : Nat)
  | runPromise (r : RunResult)
deriving DecidableEq, Repr

/-- One `sync(...)` invocation: when a sync is already in progress, return the
already-resolved `SYNC_IN_PROGRESS` status without touching the state; else
set the flag and start the run (whose eventual settlement is `run`). -/
def sync (st : SyncGuard) (run : RunResult) : SyncReturn × SyncGuard :=
  if st.syncInProgress then
    (.immediate SyncStatus.SYNC_IN_PROGRESS, st)
  else
    (.runPromise run, { syncInProgress := true, inFlight := some run })

/-- `setSyncCompleted`, the closure that clears the single-flight flag. -/
def setSyncCompleted (st : SyncGuard) : SyncGuard :=
  { st with syncInProgress := false, inFlight := none }

/-- `syncPromise.then(setSyncCompleted).catch(setSyncCompleted)`: whichever
way the run settles, `setSyncCompleted` runs. -/
def syncPromiseSettled (st : SyncGuard) (r : RunResult) : SyncGuard :=
  match r with
  | .resolved _ => setSyncCompleted st
  | .rejected _ => setSyncCompleted st

end CodePush

/-! ## Claim about the single-flight guard -/

/-- C2: a `sync` call made while another run is in flight returns
`SYNC_IN_PROGRESS` immediately, starts nothing, and leaves the module state —
in particular the in-flight run's eventual result — untouched; a `sync` call
made when idle hands back its own run's promise; and when that run settles,
by resolution or by rejection, the flag is cleared, so the next `sync` call is
admitted and starts a fresh run. -/
theorem sync_single_flight (st : CodePush.SyncGuard)
    (run run2 : CodePush.RunResult) :
    (st.syncInProgress = true →
      CodePush.sync st run =
        (.immediate CodePush.SyncStatus.SYNC_IN_PROGRESS, st))
    ∧ (st.syncInProgress = false →
        (CodePush.sync st run).1 = .runPromise run
        ∧ ((CodePush.sync st run).2).syncInProgress = true
        ∧ ((CodePush.sync st run).2).inFlight = some run)
    ∧ (CodePush.syncPromiseSettled (CodePush.sync st run).2 run).syncInProgress = false
    ∧ (CodePush.sync
        (CodePush.syncPromiseSettled (CodePush.sync st run).2 run) run2).1
      = .runPromise run2 := by
  refine ⟨?_, ?_, ?_, ?_⟩
  · intro h
    simp [CodePush.sync, h]
  · intro h
    simp [CodePush.sync, h]
  · cases run <;> rfl
  · cases run with
    | resolved s =>
      simp [CodePush.sync, CodePush.syncPromiseSettled, CodePush.setSyncCompleted]
    | rejected msg =>
      simp [CodePush.sync, CodePush.syncPromiseSettled, CodePush.setSyncCompleted]

/-- Concrete instance for the single-flight claim: with a run in flight that
will eventually resolve `UP_TO_DATE`, a second call yields `SYNC_IN_PROGRESS`
and preserves that eventual result; after the run settles (here: rejects), a
new call is admitted. -/
theorem sync_single_flight_witness :
    (CodePush.sync
        { syncInProgress := true,
          inFlight := some (.resolved CodePush.SyncStatus.UP_TO_DATE) }
        (.rejected "e") =
      (.immediate CodePush.SyncStatus.SYNC_IN_PROGRESS,
        { syncInProgress := true,
          inFlight := some (.resolved CodePush.SyncStatus.UP_TO_DATE) }))
    ∧ (CodePush.sync
        (CodePush.syncPromiseSettled
          (CodePush.sync
            { syncInProgress := true,
              inFlight := some (.resolved CodePush.SyncStatus.UP_TO_DATE) }
            (.rejected "e")).2
          (.rejected "e"))
        (.resolved CodePush.SyncStatus.UPDATE_INSTALLED)).1
      = .runPromise (.resolved CodePush.SyncStatus.UPDATE_INSTALLED) :=
  ⟨(sync_single_flight
      { syncInProgress := true,
        inFlight := some (.resolved CodePush.SyncStatus.UP_TO_DATE) }
      (.rejected "e") (.resolved CodePush.SyncStatus.UPDATE_INSTALLED)).1 rfl,
   (sync_single_flight
      { syncInProgress := true,
        inFlight := some (.resolved CodePush.SyncStatus.UP_TO_DATE) }
      (.rejected "e") (.resolved CodePush.SyncStatus.UPDATE_INSTALLED)).2.2.2⟩
